import Mathlib

/-!
Shallow embedding of `src/ftxui/screen/terminal.cpp` together with the
declarations of `include/ftxui/screen/terminal.hpp` (FTXUI fork, terminal
abstraction layer).  The embedding follows the POSIX, non-ESP32,
non-`_WIN32`, non-`__EMSCRIPTEN__` default build, which is the branch the
specification describes.

Modelling conventions:
- Machine `int` values become `Int`; the probe parses small decimal numbers,
  so overflow is irrelevant to the claims.
- The external world (line discipline of the attached tty, `isatty` results,
  the `ioctl(TIOCGWINSZ)` answer, the peer's escape-probe response bytes,
  environment variables) is passed explicitly to each operation.
- The byte stream delivered by the peer during the probe is a `List Nat`
  (byte values 0..255); the end of the list is the point where
  `Read(&ch,1,100)` returns `<= 0` (timeout or end of stream).
- `std::ostream` output, `pty_name` and the diagnostic timestamp
  `g_cached_dimensions_time` carry no information any claim depends on and
  are omitted from the state.
-/

namespace ftxui

/-- `struct Dimensions { int dimx; int dimy; }`. -/
structure Dimensions where
  dimx : Int
  dimy : Int
deriving DecidableEq, Repr

/-- `enum Terminal::Color` from the header. -/
inductive Terminal.Color where
  | Palette1
  | Palette16
  | Palette256
  | TrueColor
deriving DecidableEq, Repr

/-- Model of `struct termios`, keeping the fields `Install` mutates
(`ICANON`/`ECHO` bits of `c_lflag`, `c_cc[VMIN]`, `c_cc[VTIME]`) plus one
field `others` standing for all remaining line-discipline settings, so that
"restores the exact captured settings" is expressible. -/
structure Termios where
  icanon : Bool
  echo : Bool
  vmin : Nat
  vtime : Nat
  others : Nat
deriving DecidableEq, Repr

/-- The per-handle state of `class Terminal` (header, private section).
Note the `g_`-named members are instance fields, not globals. -/
structure Terminal where
  m_input_fd : Int
  m_output_fd : Int
  g_cached : Bool
  g_cached_dimensions : Dimensions
  g_cached_supported_color : Terminal.Color
  m_oldTerminalState : Option Termios
deriving DecidableEq, Repr

def STDIN_FILENO : Int := 0

def STDOUT_FILENO : Int := 1

/-- `Terminal::Terminal(int input_fd, int output_fd)`: the member-initialiser
state of a freshly constructed handle.  `g_cached_supported_color` has no
initialiser in the source (indeterminate until first cached); it is passed
in as `initColor` and is only read once `g_cached` is true. -/
def Terminal.mkNew (input_fd output_fd : Int) (initColor : Terminal.Color) : Terminal :=
  { m_input_fd := input_fd
    m_output_fd := output_fd
    g_cached := false
    g_cached_dimensions := ⟨0, 0⟩
    g_cached_supported_color := initColor
    m_oldTerminalState := none }

/-- `Terminal::Uninstall()`.  `disc` is the current line discipline of the
tty on `m_input_fd`; the result pairs the new handle state with the new line
discipline.  The source restores the saved settings via `tcsetattr` but does
not reset `m_oldTerminalState`. -/
def Terminal.Uninstall (t : Terminal) (disc : Termios) : Terminal × Termios :=
  match t.m_oldTerminalState with
  | none => (t, disc)
  | some old => (t, old)

/-- `Terminal::Install()`.  `isattyInput` is the result of
`isatty(m_input_fd)`. -/
def Terminal.Install (t : Terminal) (disc : Termios) (isattyInput : Bool) :
    Terminal × Termios :=
  if t.m_oldTerminalState.isSome || !isattyInput then (t, disc)
  else
    ({ t with m_oldTerminalState := some disc },
     { disc with icanon := false, echo := false, vmin := 0, vtime := 0 })

/-- `isprint` in the C locale: the printable bytes are 0x20..0x7E. -/
def isprintB (c : Nat) : Bool := 32 ≤ c && c ≤ 126

/-- The third argument of `Read(&ch, 1, 100)` in the probe's read loop: a
per-byte timeout in milliseconds, not a length cap. -/
def perByteTimeoutMilliseconds : Nat := 100

/-- The read loop of `Terminal::GetPsuedoTerminalSize`:
`while (Read(&ch,1,100) > 0 && ch != 'R') { if (EOF == ch) break;
if (isprint(ch)) input.push_back(ch); }`.
`'R'` is byte 82; with the platform's signed `char`, `EOF == ch` holds for
the byte 0xFF = 255.  The accumulated printable bytes are returned. -/
def readLoop : List Nat → List Nat → List Nat
  | [], acc => acc
  | c :: rest, acc =>
    if c == 82 then acc
    else if c == 255 then acc
    else if isprintB c then readLoop rest (acc ++ [c])
    else readLoop rest acc

/-- Number of bytes the loop reads from the peer (each iteration reads one
byte; a terminating byte is still read before the loop exits). -/
def readLoopBytes : List Nat → Nat
  | [] => 0
  | c :: rest => if c == 82 || c == 255 then 1 else 1 + readLoopBytes rest

def isSpaceB (c : Nat) : Bool := c == 32 || (9 ≤ c && c ≤ 13)

def isDigitB (c : Nat) : Bool := 48 ≤ c && c ≤ 57

def digitsVal (l : List Nat) : Nat := l.foldl (fun a c => 10 * a + (c - 48)) 0

/-- One `%d`-style unsigned digit run: at least one digit required. -/
def scanUnsigned (l : List Nat) : Option (Nat × List Nat) :=
  match l.takeWhile isDigitB with
  | [] => none
  | ds => some (digitsVal ds, l.dropWhile isDigitB)

/-- `sscanf`'s `%d` conversion: skip whitespace, optional sign, a digit run. -/
def scanInt (l : List Nat) : Option (Int × List Nat) :=
  match l.dropWhile isSpaceB with
  | 45 :: rest =>
    match scanUnsigned rest with
    | none => none
    | some (n, r) => some (-(n : Int), r)
  | 43 :: rest =>
    match scanUnsigned rest with
    | none => none
    | some (n, r) => some ((n : Int), r)
  | l1 =>
    match scanUnsigned l1 with
    | none => none
    | some (n, r) => some ((n : Int), r)

/-- Outcome of `sscanf(input, "[%d;%d", &dimy, &dimx)`: how many of the two
conversions succeeded, and the parsed values.  (A return of `EOF` from
`sscanf`, input exhausted before the first conversion, behaves like `zero`
here: no field is assigned and the result is compared unequal to 2.) -/
inductive ScanRC where
  | zero
  | one (y : Int)
  | two (y x : Int)
deriving DecidableEq, Repr

/-- `sscanf(input, "[%d;%d", &dimy, &dimx)`: the literal `'['` (byte 91) must
match exactly, then `%d` into `dimy`, then the literal `';'` (byte 59), then
`%d` into `dimx`. -/
def scanRowsCols (input : List Nat) : ScanRC :=
  match input with
  | 91 :: rest =>
    match scanInt rest with
    | none => ScanRC.zero
    | some (y, rest1) =>
      match rest1 with
      | 59 :: rest2 =>
        match scanInt rest2 with
        | none => ScanRC.one y
        | some (x, _) => ScanRC.two y x
      | _ => ScanRC.one y
  | _ => ScanRC.zero

/-- `Terminal::GetPsuedoTerminalSize()`.  `stream` is the peer's response to
the emitted escape burst, `fallback` the current value of the process-wide
`FallbackSize()` global.  A successful two-integer parse writes both cache
fields and clamps them to at least 80 columns and 24 rows; a one-integer
parse has written only `g_cached_dimensions.dimy` (sscanf assigns targets in
order) and the call returns the fallback. -/
def Terminal.GetPsuedoTerminalSize (t : Terminal) (stream : List Nat)
    (fallback : Dimensions) : Dimensions × Terminal :=
  if t.g_cached_dimensions.dimx ≠ 0 ∧ t.g_cached_dimensions.dimy ≠ 0 then
    (t.g_cached_dimensions, t)
  else
    let input := readLoop stream []
    if input = [] then (fallback, t)
    else
      match scanRowsCols input with
      | ScanRC.two y x =>
        let x1 : Int := if x < 80 then 80 else x
        let y1 : Int := if y < 24 then 24 else y
        (⟨x1, y1⟩, { t with g_cached_dimensions := ⟨x1, y1⟩ })
      | ScanRC.one y =>
        (fallback, { t with g_cached_dimensions := ⟨t.g_cached_dimensions.dimx, y⟩ })
      | ScanRC.zero => (fallback, t)

/-- `Terminal::ForceRecalculateSize()`: `g_cached_dimensions = {0,0}`. -/
def Terminal.ForceRecalculateSize (t : Terminal) : Terminal :=
  { t with g_cached_dimensions := ⟨0, 0⟩ }

/-- The external inputs `Terminal::Size()` consults on the POSIX branch:
`isatty(m_output_fd)`, the `ioctl(TIOCGWINSZ)` status and `winsize` fields
(`unsigned short`, hence `Nat`), whether `ScreenInteractive::Active()` is
non-null, and the peer's probe response bytes. -/
structure SizeEnv where
  isattyOut : Bool
  ioctlStatus : Int
  ws_col : Nat
  ws_row : Nat
  screenActive : Bool
  stream : List Nat
deriving Repr

/-- `Terminal::Size()`, POSIX non-ESP32 branch.  `IsPsuedoTerminal` is the
source's `m_output_fd != STDOUT_FILENO` test (it compares the descriptor
number, it does not call `isatty`).  When a `ScreenInteractive` is active the
source runs `GetPsuedoTerminalSize` once inside `WithRestoredIO` (result
discarded, cache updated) and then once more to produce the return value. -/
def Terminal.Size (t : Terminal) (fallback : Dimensions) (env : SizeEnv) :
    Dimensions × Terminal :=
  if t.m_output_fd ≠ STDOUT_FILENO then
    if t.g_cached_dimensions.dimx ≠ 0 ∧ t.g_cached_dimensions.dimy ≠ 0 then
      (t.g_cached_dimensions, t)
    else
      let t1 := if env.screenActive then
          (t.GetPsuedoTerminalSize env.stream fallback).2
        else t
      t1.GetPsuedoTerminalSize env.stream fallback
  else if !env.isattyOut then (fallback, t)
  else if env.ws_col = 0 ∨ env.ws_row = 0 ∨ env.ioctlStatus < 0 then
    (fallback, t)
  else (⟨(env.ws_col : Int), (env.ws_row : Int)⟩, t)

/-- `const char* Safe(const char* c)`: `nullptr` becomes `""`. -/
def Safe : Option String → String
  | none => ""
  | some s => s

def leadsWith : List Char → List Char → Bool
  | [], _ => true
  | _ :: _, [] => false
  | k :: ks, c :: cs => k == c && leadsWith ks cs

def occursIn (key : List Char) : List Char → Bool
  | [] => key.isEmpty
  | c :: rest => leadsWith key (c :: rest) || occursIn key rest

/-- `bool Contains(const std::string& s, const char* key)`:
`s.find(key) != npos`. -/
def Contains (s : String) (key : String) : Bool :=
  occursIn key.toList s.toList

/-- `ComputeColorSupport()` on the default build (no `__EMSCRIPTEN__`, no
`FTXUI_MICROSOFT_TERMINAL_FALLBACK`).  `colorterm` and `term` are
`getenv("COLORTERM")` and `getenv("TERM")`. -/
def ComputeColorSupport (colorterm term : Option String) : Terminal.Color :=
  let C := Safe colorterm
  if Contains C "24bit" || Contains C "truecolor" then Terminal.Color.TrueColor
  else if Contains C "256" || Contains (Safe term) "256" then Terminal.Color.Palette256
  else Terminal.Color.Palette16

/-- `Terminal::ColorSupport()`: computes and caches on first call
(per handle: `g_cached` is a member). -/
def Terminal.ColorSupport (t : Terminal) (colorterm term : Option String) :
    Terminal.Color × Terminal :=
  if !t.g_cached then
    let c := ComputeColorSupport colorterm term
    (c, { t with g_cached := true, g_cached_supported_color := c })
  else (t.g_cached_supported_color, t)

/-- `Terminal::SetColorSupport(Color color)`. -/
def Terminal.SetColorSupport (t : Terminal) (color : Terminal.Color) : Terminal :=
  { t with g_cached := true, g_cached_supported_color := color }

/-- The initial value of the `FallbackSize()` static on the non-Emscripten
build: the VT100 default 80×24. -/
def defaultFallbackSize : Dimensions := ⟨80, 24⟩

/-- A handle together with the process-wide `FallbackSize()` global. -/
structure Sys where
  term : Terminal
  fallback : Dimensions
deriving DecidableEq, Repr

/-- A fresh process: newly constructed handle, default fallback. -/
def Sys.init (input_fd output_fd : Int) (c : Terminal.Color) : Sys :=
  { term := Terminal.mkNew input_fd output_fd c
    fallback := defaultFallbackSize }

/-- `SetFallbackSize(const Dimensions&)`: overwrites the global
unconditionally. -/
def SetFallbackSize (s : Sys) (d : Dimensions) : Sys :=
  { s with fallback := d }

/-- `Size()` at the system level: reads the fallback global, updates the
handle. -/
def Sys.SizeOp (s : Sys) (env : SizeEnv) : Dimensions × Sys :=
  ((s.term.Size s.fallback env).1, { s with term := (s.term.Size s.fallback env).2 })

/-- The process-wide `g_currentTerminal` pointer (anonymous namespace of the
source) together with the handles constructed so far.  A handle is identified
by its construction index; `handles` records each handle's
`(input_fd, output_fd)` pair. -/
structure Registry where
  handles : List (Int × Int)
  g_currentTerminal : Option Nat
deriving DecidableEq, Repr

/-- The constructor body `Terminal::Terminal`: registers the new instance and
rebinds `g_currentTerminal` to it. -/
def Registry.construct (r : Registry) (input_fd output_fd : Int) : Nat × Registry :=
  (r.handles.length,
   { handles := r.handles ++ [(input_fd, output_fd)]
     g_currentTerminal := some r.handles.length })

/-- `Terminal::Create(int inputFd, int outputFd)`: returns the newly
constructed handle (C++17 guaranteed copy elision builds it in place, so the
registered instance is the returned one). -/
def Registry.Create (r : Registry) (inputFd outputFd : Int) : Nat × Registry :=
  r.construct inputFd outputFd

/-- `Terminal::Current()`: lazily constructs the default stdin/stdout handle
when no handle is current. -/
def Registry.Current (r : Registry) : Nat × Registry :=
  match r.g_currentTerminal with
  | some id => (id, r)
  | none => r.construct STDIN_FILENO STDOUT_FILENO

/-- One observable operation of the program, acting on a handle and the
process-wide fallback global.  The environment arguments (`env`, `disc`,
`isattyInput`, environment variables) are arbitrary at every step. -/
inductive Step : Sys → Sys → Prop where
  | setFallback (s : Sys) (d : Dimensions) : Step s (SetFallbackSize s d)
  | force (s : Sys) : Step s { s with term := s.term.ForceRecalculateSize }
  | size (s : Sys) (env : SizeEnv) : Step s (s.SizeOp env).2
  | colorSupport (s : Sys) (c m : Option String) :
      Step s { s with term := (s.term.ColorSupport c m).2 }
  | setColorSupport (s : Sys) (c : Terminal.Color) :
      Step s { s with term := s.term.SetColorSupport c }
  | install (s : Sys) (disc : Termios) (b : Bool) :
      Step s { s with term := (s.term.Install disc b).1 }
  | uninstall (s : Sys) (disc : Termios) :
      Step s { s with term := (s.term.Uninstall disc).1 }

/-- A state of the program reachable from some fresh process by the
operations above. -/
def Reachable (s : Sys) : Prop :=
  ∃ i o c, Relation.ReflTransGen Step (Sys.init i o c) s

/-- The invariant of the dimension cache: either no successful two-integer
parse has completed since the last invalidation (`dimx` still 0, covering
both the empty cache and a partially written one), or both fields were
written together by a successful parse and clamped to at least 80×24. -/
def CacheInv (t : Terminal) : Prop :=
  t.g_cached_dimensions.dimx = 0 ∨
    (80 ≤ t.g_cached_dimensions.dimx ∧ 24 ≤ t.g_cached_dimensions.dimy)

/-! Helper lemmas: equations for the probe, the read loop, and preservation
of the cache invariant. -/

/-- The read loop accumulates exactly the printable bytes of the stream
prefix that precedes the first terminating byte (`'R'` = 82 or 255). -/
theorem readLoop_eq (stream acc : List Nat) :
    readLoop stream acc =
      acc ++ (stream.takeWhile (fun c => !(c == 82 || c == 255))).filter isprintB := by
  induction stream generalizing acc with
  | nil => simp [readLoop]
  | cons c rest ih =>
    by_cases h82 : c = 82
    · simp [readLoop, h82]
    · by_cases h255 : c = 255
      · simp [readLoop, h82, h255]
      · by_cases hp : isprintB c
        · simp [readLoop, h82, h255, hp, ih]
        · simp [readLoop, h82, h255, hp, ih]

theorem readLoopBytes_le (stream : List Nat) :
    readLoopBytes stream ≤ stream.length := by
  induction stream with
  | nil => simp [readLoopBytes]
  | cons c rest ih =>
    by_cases h : (c == 82 || c == 255) = true
    · simp only [readLoopBytes, List.length_cons]
      rw [if_pos h]
      omega
    · simp only [readLoopBytes, List.length_cons]
      rw [if_neg h]
      omega

theorem probe_hit (t : Terminal) (stream : List Nat) (fb : Dimensions)
    (h : t.g_cached_dimensions.dimx ≠ 0 ∧ t.g_cached_dimensions.dimy ≠ 0) :
    t.GetPsuedoTerminalSize stream fb = (t.g_cached_dimensions, t) := by
  simp only [Terminal.GetPsuedoTerminalSize, if_pos h]

theorem probe_nohit_empty (t : Terminal) (stream : List Nat) (fb : Dimensions)
    (h : ¬(t.g_cached_dimensions.dimx ≠ 0 ∧ t.g_cached_dimensions.dimy ≠ 0))
    (he : readLoop stream [] = []) :
    t.GetPsuedoTerminalSize stream fb = (fb, t) := by
  simp only [Terminal.GetPsuedoTerminalSize, if_neg h, he, if_pos]

theorem probe_two (t : Terminal) (stream : List Nat) (fb : Dimensions) (y x : Int)
    (h : ¬(t.g_cached_dimensions.dimx ≠ 0 ∧ t.g_cached_dimensions.dimy ≠ 0))
    (hne : readLoop stream [] ≠ [])
    (hs : scanRowsCols (readLoop stream []) = ScanRC.two y x) :
    t.GetPsuedoTerminalSize stream fb =
      (⟨if x < 80 then 80 else x, if y < 24 then 24 else y⟩,
       { t with g_cached_dimensions :=
          ⟨if x < 80 then 80 else x, if y < 24 then 24 else y⟩ }) := by
  simp only [Terminal.GetPsuedoTerminalSize, if_neg h, if_neg hne, hs]

theorem probe_one (t : Terminal) (stream : List Nat) (fb : Dimensions) (y : Int)
    (h : ¬(t.g_cached_dimensions.dimx ≠ 0 ∧ t.g_cached_dimensions.dimy ≠ 0))
    (hne : readLoop stream [] ≠ [])
    (hs : scanRowsCols (readLoop stream []) = ScanRC.one y) :
    t.GetPsuedoTerminalSize stream fb =
      (fb, { t with g_cached_dimensions := ⟨t.g_cached_dimensions.dimx, y⟩ }) := by
  simp only [Terminal.GetPsuedoTerminalSize, if_neg h, if_neg hne, hs]

theorem probe_zero (t : Terminal) (stream : List Nat) (fb : Dimensions)
    (h : ¬(t.g_cached_dimensions.dimx ≠ 0 ∧ t.g_cached_dimensions.dimy ≠ 0))
    (hne : readLoop stream [] ≠ [])
    (hs : scanRowsCols (readLoop stream []) = ScanRC.zero) :
    t.GetPsuedoTerminalSize stream fb = (fb, t) := by
  simp only [Terminal.GetPsuedoTerminalSize, if_neg h, if_neg hne, hs]

theorem nohit_dimx_zero (t : Terminal) (hinv : CacheInv t)
    (h : ¬(t.g_cached_dimensions.dimx ≠ 0 ∧ t.g_cached_dimensions.dimy ≠ 0)) :
    t.g_cached_dimensions.dimx = 0 := by
  rcases hinv with h0 | ⟨hx, hy⟩
  · exact h0
  · exact absurd ⟨by omega, by omega⟩ h

theorem probe_cacheInv (t : Terminal) (stream : List Nat) (fb : Dimensions)
    (hinv : CacheInv t) : CacheInv (t.GetPsuedoTerminalSize stream fb).2 := by
  by_cases h : t.g_cached_dimensions.dimx ≠ 0 ∧ t.g_cached_dimensions.dimy ≠ 0
  · rw [probe_hit t stream fb h]
    exact hinv
  · by_cases he : readLoop stream [] = []
    · rw [probe_nohit_empty t stream fb h he]
      exact hinv
    · rcases hs : scanRowsCols (readLoop stream []) with _ | y | ⟨y, x⟩
      · rw [probe_zero t stream fb h he hs]
        exact hinv
      · rw [probe_one t stream fb y h he hs]
        exact Or.inl (nohit_dimx_zero t hinv h)
      · rw [probe_two t stream fb y x h he hs]
        refine Or.inr ⟨?_, ?_⟩ <;> simp only [] <;> split <;> omega

theorem probe_fd (t : Terminal) (stream : List Nat) (fb : Dimensions) :
    ((t.GetPsuedoTerminalSize stream fb).2).m_output_fd = t.m_output_fd := by
  by_cases h : t.g_cached_dimensions.dimx ≠ 0 ∧ t.g_cached_dimensions.dimy ≠ 0
  · rw [probe_hit t stream fb h]
  · by_cases he : readLoop stream [] = []
    · rw [probe_nohit_empty t stream fb h he]
    · rcases hs : scanRowsCols (readLoop stream []) with _ | y | ⟨y, x⟩
      · rw [probe_zero t stream fb h he hs]
      · rw [probe_one t stream fb y h he hs]
      · rw [probe_two t stream fb y x h he hs]

/-- Under the cache invariant, the probe is idempotent: running it again from
the state it produced returns the same result and leaves the state alone. -/
theorem probe_idem (t : Terminal) (stream : List Nat) (fb : Dimensions)
    (hinv : CacheInv t) :
    (t.GetPsuedoTerminalSize stream fb).2.GetPsuedoTerminalSize stream fb
      = t.GetPsuedoTerminalSize stream fb := by
  by_cases h : t.g_cached_dimensions.dimx ≠ 0 ∧ t.g_cached_dimensions.dimy ≠ 0
  · rw [probe_hit t stream fb h]
    exact probe_hit t stream fb h
  · by_cases he : readLoop stream [] = []
    · rw [probe_nohit_empty t stream fb h he]
      exact probe_nohit_empty t stream fb h he
    · rcases hs : scanRowsCols (readLoop stream []) with _ | y | ⟨y, x⟩
      · rw [probe_zero t stream fb h he hs]
        exact probe_zero t stream fb h he hs
      · rw [probe_one t stream fb y h he hs]
        have hx0 : t.g_cached_dimensions.dimx = 0 := nohit_dimx_zero t hinv h
        have h2 : ¬(({ t with g_cached_dimensions :=
            (⟨t.g_cached_dimensions.dimx, y⟩ : Dimensions) } :
              Terminal).g_cached_dimensions.dimx ≠ 0 ∧
            ({ t with g_cached_dimensions :=
            (⟨t.g_cached_dimensions.dimx, y⟩ : Dimensions) } :
              Terminal).g_cached_dimensions.dimy ≠ 0) := by
          intro hc
          exact hc.1 hx0
        exact probe_one _ stream fb y h2 he hs
      · rw [probe_two t stream fb y x h he hs]
        have h2 : (({ t with g_cached_dimensions :=
            (⟨if x < 80 then 80 else x, if y < 24 then 24 else y⟩ : Dimensions) } :
              Terminal).g_cached_dimensions.dimx ≠ 0 ∧
            ({ t with g_cached_dimensions :=
            (⟨if x < 80 then 80 else x, if y < 24 then 24 else y⟩ : Dimensions) } :
              Terminal).g_cached_dimensions.dimy ≠ 0) := by
          constructor <;> simp only [] <;> split <;> omega
        exact probe_hit _ stream fb h2

/-- On the pseudo-terminal branch (output descriptor different from
`STDOUT_FILENO`), `Size()` behaves exactly like one probe call, for states
satisfying the cache invariant. -/
theorem size_pty (t : Terminal) (fb : Dimensions) (env : SizeEnv)
    (hfd : t.m_output_fd ≠ STDOUT_FILENO) (hinv : CacheInv t) :
    t.Size fb env = t.GetPsuedoTerminalSize env.stream fb := by
  unfold Terminal.Size
  rw [if_pos hfd]
  by_cases hhit : t.g_cached_dimensions.dimx ≠ 0 ∧ t.g_cached_dimensions.dimy ≠ 0
  · rw [if_pos hhit, probe_hit t env.stream fb hhit]
  · rw [if_neg hhit]
    by_cases hsa : env.screenActive
    · simp only [if_pos hsa]
      exact probe_idem t env.stream fb hinv
    · simp only [if_neg hsa]

theorem size_nonpty_state (t : Terminal) (fb : Dimensions) (env : SizeEnv)
    (hfd : t.m_output_fd = STDOUT_FILENO) :
    (t.Size fb env).2 = t := by
  unfold Terminal.Size
  rw [if_neg (by simp [hfd])]
  split
  · rfl
  · split <;> rfl

theorem size_cacheInv (t : Terminal) (fb : Dimensions) (env : SizeEnv)
    (hinv : CacheInv t) : CacheInv (t.Size fb env).2 := by
  by_cases hfd : t.m_output_fd = STDOUT_FILENO
  · rw [size_nonpty_state t fb env hfd]
    exact hinv
  · rw [size_pty t fb env hfd hinv]
    exact probe_cacheInv t env.stream fb hinv

theorem colorSupport_cache_eq (t : Terminal) (c m : Option String) :
    ((t.ColorSupport c m).2).g_cached_dimensions = t.g_cached_dimensions := by
  unfold Terminal.ColorSupport
  split <;> rfl

theorem step_cacheInv {s s' : Sys} (h : Step s s') (hinv : CacheInv s.term) :
    CacheInv s'.term := by
  cases h with
  | setFallback d => exact hinv
  | force => exact Or.inl rfl
  | size env => exact size_cacheInv s.term s.fallback env hinv
  | colorSupport c m =>
    unfold CacheInv at hinv ⊢
    rw [colorSupport_cache_eq]
    exact hinv
  | setColorSupport c => exact hinv
  | install disc b =>
    unfold CacheInv at hinv ⊢
    unfold Terminal.Install
    split
    · exact hinv
    · exact hinv
  | uninstall disc =>
    unfold CacheInv at hinv ⊢
    unfold Terminal.Uninstall
    split
    · exact hinv
    · exact hinv

/-- Every reachable state satisfies the cache invariant. -/
theorem reachable_cacheInv (s : Sys) (h : Reachable s) : CacheInv s.term := by
  obtain ⟨i, o, c, hr⟩ := h
  induction hr with
  | refl => exact Or.inl rfl
  | tail _ hstep ih => exact step_cacheInv hstep ih

/-- Under the cache invariant, `Size()` is idempotent: a second call from the
state the first one produced returns the same dimensions and state. -/
theorem size_idem (t : Terminal) (fb : Dimensions) (env : SizeEnv)
    (hinv : CacheInv t) :
    (t.Size fb env).2.Size fb env = t.Size fb env := by
  by_cases hfd : t.m_output_fd = STDOUT_FILENO
  · rw [size_nonpty_state t fb env hfd]
  · have h2 : (t.Size fb env).2.m_output_fd ≠ STDOUT_FILENO := by
      rw [size_pty t fb env hfd hinv, probe_fd]
      exact hfd
    rw [size_pty _ fb env h2 (size_cacheInv t fb env hinv)]
    rw [size_pty t fb env hfd hinv]
    have henv : ((t.GetPsuedoTerminalSize env.stream fb).2.GetPsuedoTerminalSize
        env.stream fb) = t.GetPsuedoTerminalSize env.stream fb :=
      probe_idem t env.stream fb hinv
    exact henv

/-! Concrete sample data used by counterexamples and witnesses. -/

/-- The peer response byte stream `"\x1b[24;80R"`. -/
def probeResponse2480 : List Nat := [27, 91, 50, 52, 59, 56, 48, 82]

/-- The peer response byte stream `"\x1b[100;200R"`. -/
def probeResponse100200 : List Nat := [27, 91, 49, 48, 48, 59, 50, 48, 48, 82]

/-- A cooked line discipline: canonical mode and echo on. -/
def cookedDisc : Termios := ⟨true, true, 1, 0, 7⟩

/-- Environment of a handle whose output descriptor is a pipe: not a tty,
ioctl irrelevant, no active screen, silent peer. -/
def pipeEnv : SizeEnv := ⟨false, 0, 0, 0, false, []⟩

/-- Environment of a pseudo-terminal handle with an active screen and a
well-formed peer response. -/
def ptyEnv : SizeEnv := ⟨false, 0, 0, 0, true, probeResponse2480⟩

/-- A fresh process whose handle is bound to a pseudo-terminal pair
(output descriptor 5, different from `STDOUT_FILENO`). -/
def samplePtySys : Sys := Sys.init 0 5 Terminal.Color.Palette1

end ftxui

namespace ftxui

/-! Claims. -/

/-- C1 counterexample: on a fresh handle with a cooked tty, `Install` then
`Uninstall` restores the cooked settings but does not discard the snapshot
(`m_oldTerminalState` is still set), and a further `Install` on the same
handle is exactly a no-op: it does not re-capture settings and leaves the
line discipline cooked. -/
theorem C1_counterexample :
    (let t0 := Terminal.mkNew 0 1 Terminal.Color.Palette1
     let p1 := t0.Install cookedDisc true
     let p2 := p1.1.Uninstall p1.2
     p1.1.m_oldTerminalState = some cookedDisc
       ∧ p2.2 = cookedDisc
       ∧ p2.1.m_oldTerminalState = some cookedDisc
       ∧ p2.1.Install cookedDisc true = (p2.1, cookedDisc)
       ∧ (p2.1.Install cookedDisc true).2.icanon = true) := by
  decide

/-- C1 (amended): once a handle holds a captured snapshot, `Uninstall`
restores exactly the captured line-discipline settings but retains the
snapshot, so every further `Install` on the same handle is a no-op (it
neither re-captures settings nor installs raw mode); the handle never
returns to the snapshot-free Cooked state. -/
theorem C1_uninstall_keeps_snapshot (t : Terminal) (d d2 : Termios)
    (s : Termios) (b : Bool) (h : t.m_oldTerminalState = some s) :
    t.Uninstall d = (t, s) ∧ t.Install d2 b = (t, d2) := by
  constructor
  · unfold Terminal.Uninstall
    rw [h]
  · have hc : (t.m_oldTerminalState.isSome || !b) = true := by
      simp [h]
    unfold Terminal.Install
    rw [if_pos hc]

theorem C1_witness :
    (let t1 := ((Terminal.mkNew 0 1 Terminal.Color.Palette1).Install cookedDisc true).1
     t1.Uninstall ⟨false, false, 0, 0, 7⟩ = (t1, cookedDisc)
       ∧ t1.Install cookedDisc true = (t1, cookedDisc)) :=
  C1_uninstall_keeps_snapshot _ ⟨false, false, 0, 0, 7⟩ cookedDisc cookedDisc true (by decide)

set_option maxRecDepth 4000 in
/-- C2 counterexample: a peer that sends 256 printable non-terminator bytes
makes the read loop read all 256 bytes and accumulate all 256 printable
characters: there is no ≈100-character cap on the accumulation. -/
theorem C2_counterexample :
    (readLoop (List.replicate 256 97) []).length = 256
      ∧ readLoopBytes (List.replicate 256 97) = 256 := by
  constructor <;> decide

/-- C2 (amended): the probe's read loop accumulates exactly the printable
bytes of the stream prefix preceding the first terminating byte (`'R'` or
0xFF, the byte the `EOF == ch` test matches); it stops only on end-of-stream
or on such a byte, so the number of bytes read is bounded only by the length
of the peer's stream — the literal 100 in the loop is the per-byte timeout
in milliseconds, not a length cap. -/
theorem C2_read_loop_characterization (stream : List Nat) :
    readLoop stream [] =
        (stream.takeWhile (fun c => !(c == 82 || c == 255))).filter isprintB
      ∧ readLoopBytes stream ≤ stream.length
      ∧ perByteTimeoutMilliseconds = 100 :=
  ⟨readLoop_eq stream [], readLoopBytes_le stream, rfl⟩

/-- C3 counterexample: after `SetFallbackSize({0,0})`, a `Size()` call on the
default stdin/stdout handle whose output is not a tty returns `{0,0}`: a
zero width and height reach the caller. -/
theorem C3_counterexample :
    (Sys.SizeOp (SetFallbackSize (Sys.init 0 1 Terminal.Color.Palette1) ⟨0, 0⟩)
        pipeEnv).1 = ⟨0, 0⟩ := by
  decide

/-- C3 (amended): provided the fallback dimensions in effect are strictly
positive (true for the default 80×24, and preserved whenever
`SetFallbackSize` is only called with strictly positive values) and the
handle's cache satisfies the reachability invariant, every `Dimensions`
value returned by `Size()` has strictly positive width and height; with a
non-positive fallback installed by `SetFallbackSize`, `Size()` can return a
zero width or height. -/
theorem C3_size_positive (t : Terminal) (fb : Dimensions) (env : SizeEnv)
    (hinv : CacheInv t) (hx : 0 < fb.dimx) (hy : 0 < fb.dimy) :
    0 < (t.Size fb env).1.dimx ∧ 0 < (t.Size fb env).1.dimy := by
  by_cases hfd : t.m_output_fd = STDOUT_FILENO
  · unfold Terminal.Size
    rw [if_neg (not_not.mpr hfd)]
    split
    · exact ⟨hx, hy⟩
    · split
      · exact ⟨hx, hy⟩
      · rename_i hcond
        push_neg at hcond
        refine ⟨?_, ?_⟩ <;> simp only [] <;> omega
  · rw [size_pty t fb env hfd hinv]
    by_cases h : t.g_cached_dimensions.dimx ≠ 0 ∧ t.g_cached_dimensions.dimy ≠ 0
    · rw [probe_hit t env.stream fb h]
      rcases hinv with h0 | ⟨h80, h24⟩
      · exact absurd h0 h.1
      · refine ⟨?_, ?_⟩ <;> show (0 : Int) < _ <;> simp only [] <;> omega
    · by_cases he : readLoop env.stream [] = []
      · rw [probe_nohit_empty t env.stream fb h he]
        exact ⟨hx, hy⟩
      · rcases hs : scanRowsCols (readLoop env.stream []) with _ | y | ⟨y, x⟩
        · rw [probe_zero t env.stream fb h he hs]
          exact ⟨hx, hy⟩
        · rw [probe_one t env.stream fb y h he hs]
          exact ⟨hx, hy⟩
        · rw [probe_two t env.stream fb y x h he hs]
          refine ⟨?_, ?_⟩ <;> simp only [] <;> split <;> omega

theorem C3_witness :
    0 < ((Terminal.mkNew 0 1 Terminal.Color.Palette1).Size ⟨80, 24⟩ pipeEnv).1.dimx
      ∧ 0 < ((Terminal.mkNew 0 1 Terminal.Color.Palette1).Size ⟨80, 24⟩ pipeEnv).1.dimy :=
  C3_size_positive (Terminal.mkNew 0 1 Terminal.Color.Palette1) ⟨80, 24⟩ pipeEnv
    (Or.inl rfl) (by decide) (by decide)

/-- C4 counterexample: a handle whose output descriptor is `STDOUT_FILENO`
but refers to a pipe (isatty false) does NOT get the escape-sequence
negotiation: `Size()` returns the fallback with the handle untouched, even
though probing the same peer stream from the same handle would have parsed
and cached 200×100. -/
theorem C4_counterexample :
    Terminal.Size (Terminal.mkNew 0 1 Terminal.Color.Palette1) ⟨80, 24⟩
        ⟨false, 0, 0, 0, false, probeResponse100200⟩
      = (⟨80, 24⟩, Terminal.mkNew 0 1 Terminal.Color.Palette1)
    ∧ ((Terminal.mkNew 0 1 Terminal.Color.Palette1).GetPsuedoTerminalSize
        probeResponse100200 ⟨80, 24⟩).1 = ⟨200, 100⟩ := by
  constructor <;> decide

/-- C4 (amended): `Size()` decides the escape-negotiation branch by
descriptor number, not by whether the output is a real console: when the
output descriptor differs from `STDOUT_FILENO` it performs the negotiation
(it behaves as one `GetPsuedoTerminalSize` probe call, caching on success);
when the output descriptor equals `STDOUT_FILENO` and is not a tty it
returns the fallback without probing. -/
theorem C4_probe_iff_nonstdout (t : Terminal) (fb : Dimensions) (env : SizeEnv) :
    (t.m_output_fd = STDOUT_FILENO → env.isattyOut = false → t.Size fb env = (fb, t))
    ∧ (t.m_output_fd ≠ STDOUT_FILENO → CacheInv t →
        t.Size fb env = t.GetPsuedoTerminalSize env.stream fb) := by
  constructor
  · intro hfd hatty
    unfold Terminal.Size
    rw [if_neg (not_not.mpr hfd), hatty]
    simp
  · intro hfd hinv
    exact size_pty t fb env hfd hinv

theorem C4_witness :
    Terminal.Size (Terminal.mkNew 0 1 Terminal.Color.Palette1) ⟨80, 24⟩ pipeEnv
      = (⟨80, 24⟩, Terminal.mkNew 0 1 Terminal.Color.Palette1) :=
  (C4_probe_iff_nonstdout (Terminal.mkNew 0 1 Terminal.Color.Palette1) ⟨80, 24⟩
    pipeEnv).1 rfl rfl

end ftxui

namespace ftxui

/-- C5 counterexample: the color-support cache is not process-wide.  After
`SetColorSupport(TrueColor)` on one handle, a different handle's
`ColorSupport()` (with neither `COLORTERM` nor `TERM` set) recomputes and
returns `Palette16`, not the supposedly process-wide cached `TrueColor`. -/
theorem C5_counterexample :
    (((Terminal.mkNew 0 1 Terminal.Color.Palette1).SetColorSupport
        Terminal.Color.TrueColor).ColorSupport none none).1 = Terminal.Color.TrueColor
    ∧ ((Terminal.mkNew 2 3 Terminal.Color.Palette1).ColorSupport none none).1
        = Terminal.Color.Palette16 := by
  constructor <;> decide

/-- C5 (amended): the computed or overridden color support level is cached
per handle: after a handle's `ColorSupport()` first computes the level, or
after `SetColorSupport(level)` on that handle, that same handle's subsequent
`ColorSupport()` calls return the cached value without recomputation,
whatever the environment variables then hold; other handles are
unaffected and recompute independently. -/
theorem C5_per_handle_color_cache (t : Terminal) (c : Terminal.Color)
    (e1 e2 e3 e4 : Option String) :
    (t.SetColorSupport c).ColorSupport e1 e2 = (c, t.SetColorSupport c)
    ∧ (t.ColorSupport e1 e2).2.ColorSupport e3 e4
        = ((t.ColorSupport e1 e2).1, (t.ColorSupport e1 e2).2) := by
  constructor
  · unfold Terminal.SetColorSupport Terminal.ColorSupport
    simp
  · unfold Terminal.ColorSupport
    by_cases h : t.g_cached
    · simp [h]
    · simp [h]

/-- C6: `Size()` is idempotent between invalidations: from any reachable
program state, two consecutive `Size()` calls under the same fixed external
environment (same isatty/ioctl answers, same peer response stream), with no
intervening `ForceRecalculateSize()`, return identical dimensions. -/
theorem C6_size_idempotent (s : Sys) (env : SizeEnv) (h : Reachable s) :
    (Sys.SizeOp (Sys.SizeOp s env).2 env).1 = (Sys.SizeOp s env).1 := by
  have hinv := reachable_cacheInv s h
  show ((s.term.Size s.fallback env).2.Size s.fallback env).1
    = (s.term.Size s.fallback env).1
  rw [size_idem s.term s.fallback env hinv]

theorem C6_witness :
    (Sys.SizeOp (Sys.SizeOp samplePtySys ptyEnv).2 ptyEnv).1
      = (Sys.SizeOp samplePtySys ptyEnv).1 :=
  C6_size_idempotent samplePtySys ptyEnv
    ⟨0, 5, Terminal.Color.Palette1, Relation.ReflTransGen.refl⟩

/-- C7: with an empty cache, the escape probe parses the peer stream
`"\x1b[24;80R"` to width 80 and height 24; an empty stream, or any stream
whose accumulated text does not parse as `[<rows>;<cols>` with both
integers, yields the current fallback dimensions. -/
theorem C7_probe_parse (t : Terminal) (fb : Dimensions)
    (h : t.g_cached_dimensions = ⟨0, 0⟩) :
    (t.GetPsuedoTerminalSize probeResponse2480 fb).1 = ⟨80, 24⟩
    ∧ (t.GetPsuedoTerminalSize [] fb).1 = fb
    ∧ ∀ stream : List Nat,
        (∀ y x : Int, scanRowsCols (readLoop stream []) ≠ ScanRC.two y x) →
        (t.GetPsuedoTerminalSize stream fb).1 = fb := by
  have hnohit : ¬(t.g_cached_dimensions.dimx ≠ 0 ∧ t.g_cached_dimensions.dimy ≠ 0) := by
    rw [h]
    intro hc
    exact hc.1 rfl
  refine ⟨?_, ?_, ?_⟩
  · rw [probe_two t probeResponse2480 fb 24 80 hnohit (by decide) (by decide)]
    simp
  · rw [probe_nohit_empty t [] fb hnohit rfl]
  · intro stream hns
    by_cases he : readLoop stream [] = []
    · rw [probe_nohit_empty t stream fb hnohit he]
    · rcases hs : scanRowsCols (readLoop stream []) with _ | y | ⟨y, x⟩
      · rw [probe_zero t stream fb hnohit he hs]
      · rw [probe_one t stream fb y hnohit he hs]
      · exact absurd hs (hns y x)

theorem C7_witness :
    ((Terminal.mkNew 0 5 Terminal.Color.Palette1).GetPsuedoTerminalSize
        probeResponse2480 ⟨33, 44⟩).1 = ⟨80, 24⟩
    ∧ ((Terminal.mkNew 0 5 Terminal.Color.Palette1).GetPsuedoTerminalSize
        [] ⟨33, 44⟩).1 = ⟨33, 44⟩ :=
  ⟨(C7_probe_parse (Terminal.mkNew 0 5 Terminal.Color.Palette1) ⟨33, 44⟩ rfl).1,
   (C7_probe_parse (Terminal.mkNew 0 5 Terminal.Color.Palette1) ⟨33, 44⟩ rfl).2.1⟩

/-- C8: on a handle whose color cache is still unset (a fresh handle, default
build), `ColorSupport()` returns `TrueColor` when `COLORTERM=truecolor`,
`Palette256` when `TERM=xterm-256color` and `COLORTERM` is unset, and
`Palette16` when neither variable is set. -/
theorem C8_color_support_heuristic (t : Terminal) (h : t.g_cached = false) :
    (t.ColorSupport (some "truecolor") none).1 = Terminal.Color.TrueColor
    ∧ (t.ColorSupport none (some "xterm-256color")).1 = Terminal.Color.Palette256
    ∧ (t.ColorSupport none none).1 = Terminal.Color.Palette16 := by
  unfold Terminal.ColorSupport
  rw [h]
  refine ⟨?_, ?_, ?_⟩ <;> simp <;> decide

theorem C8_witness :
    ((Terminal.mkNew 0 1 Terminal.Color.Palette1).ColorSupport
        (some "truecolor") none).1 = Terminal.Color.TrueColor
    ∧ ((Terminal.mkNew 0 1 Terminal.Color.Palette1).ColorSupport
        none (some "xterm-256color")).1 = Terminal.Color.Palette256
    ∧ ((Terminal.mkNew 0 1 Terminal.Color.Palette1).ColorSupport
        none none).1 = Terminal.Color.Palette16 :=
  C8_color_support_heuristic (Terminal.mkNew 0 1 Terminal.Color.Palette1) rfl

/-- C9: in every reachable state the dimension cache is either hit-free
(`dimx = 0`, which covers the empty cache and any partially written entry —
a one-integer parse only ever writes `dimy`) or fully written by one
successful parse (both fields at least the 80×24 clamps); consequently the
cache-hit guard (both fields nonzero) never exposes a partially written
entry: whenever the guard fails, the probe returns the fallback or a freshly
parsed, fully clamped size, never the partial cache contents. -/
theorem C9_cache_hit_invariant (s : Sys) (h : Reachable s) :
    (s.term.g_cached_dimensions.dimx = 0 ∨
      (80 ≤ s.term.g_cached_dimensions.dimx ∧ 24 ≤ s.term.g_cached_dimensions.dimy))
    ∧ ∀ (stream : List Nat) (fb : Dimensions),
        ¬(s.term.g_cached_dimensions.dimx ≠ 0 ∧ s.term.g_cached_dimensions.dimy ≠ 0) →
        (s.term.GetPsuedoTerminalSize stream fb).1 = fb
        ∨ (80 ≤ (s.term.GetPsuedoTerminalSize stream fb).1.dimx
            ∧ 24 ≤ (s.term.GetPsuedoTerminalSize stream fb).1.dimy) := by
  have hinv := reachable_cacheInv s h
  refine ⟨hinv, ?_⟩
  intro stream fb hnohit
  by_cases he : readLoop stream [] = []
  · rw [probe_nohit_empty s.term stream fb hnohit he]
    exact Or.inl rfl
  · rcases hs : scanRowsCols (readLoop stream []) with _ | y | ⟨y, x⟩
    · rw [probe_zero s.term stream fb hnohit he hs]
      exact Or.inl rfl
    · rw [probe_one s.term stream fb y hnohit he hs]
      exact Or.inl rfl
    · rw [probe_two s.term stream fb y x hnohit he hs]
      refine Or.inr ⟨?_, ?_⟩ <;> simp only [] <;> split <;> omega

theorem C9_witness :
    samplePtySys.term.g_cached_dimensions.dimx = 0 ∨
      (80 ≤ samplePtySys.term.g_cached_dimensions.dimx
        ∧ 24 ≤ samplePtySys.term.g_cached_dimensions.dimy) :=
  (C9_cache_hit_invariant samplePtySys
    ⟨0, 5, Terminal.Color.Palette1, Relation.ReflTransGen.refl⟩).1

/-- C10: constructing a Terminal (in particular through
`Terminal::Create(inputFd, outputFd)`) rebinds the process-wide
`g_currentTerminal` pointer to the new instance, so a subsequent
`Terminal::Current()` returns that most recently constructed handle — with
its given descriptors — instead of lazily creating the default
stdin/stdout handle. -/
theorem C10_create_rebinds_current (r : Registry) (i o : Int) :
    Registry.Current (r.Create i o).2 = ((r.Create i o).1, (r.Create i o).2)
    ∧ ((r.Create i o).2.handles)[(r.Create i o).1]? = some (i, o)
    ∧ (r.Create i o).2.g_currentTerminal = some (r.Create i o).1 := by
  refine ⟨rfl, ?_, rfl⟩
  exact List.getElem?_concat_length r.handles (i, o)

end ftxui
